import Mathlib

/-!
Verification of the token-gated resume dashboard backend.

This file shallowly embeds the routing, confidence, session-workflow,
and token-authentication logic of the Python backend
(`backend/src/...`) as executable Lean definitions and proves the
specification's claims about them.

Strings are modelled as `List Char`.  Python float constants
(`0.9`, `0.5`, ...) are modelled as exact rationals.  External LLM
calls are modelled as oracle inputs: the raw response text the LLM
would return is an explicit argument of each embedded function.
-/

namespace Dashboard

/-- The characters removed by Python's `str.strip()` (ASCII whitespace). -/
def isWs (c : Char) : Bool :=
  c == ' ' || c == '\t' || c == '\n' || c == '\r' || c == '\x0b' || c == '\x0c'

/-- Python `str.strip()`: drop leading and trailing whitespace. -/
def pyStrip (l : List Char) : List Char :=
  ((l.dropWhile isWs).reverse.dropWhile isWs).reverse

/-- Python `str.upper()` (ASCII case mapping). -/
def pyUpper (l : List Char) : List Char := l.map Char.toUpper

/-- `startsWith pat l` holds when `pat` is a prefix of `l`. -/
def startsWith : List Char → List Char → Bool
  | [], _ => true
  | _ :: _, [] => false
  | p :: ps, b :: hs => p == b && startsWith ps hs

/-- Python's substring test `pat in hay`. -/
def containsSub (pat : List Char) : List Char → Bool
  | [] => pat.isEmpty
  | c :: rest => startsWith pat (c :: rest) || containsSub pat rest

/-- `pat` occurs contiguously inside `hay`. -/
def SubSeg (pat hay : List Char) : Prop := ∃ s t, hay = s ++ pat ++ t

/-!
## Router
`backend/src/solutions/resume_dashboard/agents/router.py`, `RouterAgent`.
-/

/-- The `agent_map` literal of `RouterAgent.route`, in Python dict insertion
order (which is the iteration order of `agent_map.items()`). -/
def agent_map : List (List Char × (List Char × ℚ)) :=
  [ ("INTERVIEW".data, ("interview".data, 9/10)),
    ("TECHNICAL".data, ("technical".data, 9/10)),
    ("PERSONAL".data, ("personal".data, 9/10)),
    ("BACKGROUND".data, ("background".data, 9/10)),
    ("HELP".data, ("help".data, 9/10)) ]

/-- `RouterAgent.route`, with the LLM modelled as an oracle: `llmText` is the
raw `.content` of `self.llm.invoke(prompt)`.  The function normalises the
response with `.strip().upper()` and returns the value of the first
`agent_map` entry whose key is a substring of it, defaulting to
`("help", 0.5)`. -/
def route (llmText : List Char) : List Char × ℚ :=
  let response := pyUpper (pyStrip llmText)
  match agent_map.find? (fun kv => containsSub kv.1 response) with
  | some kv => kv.2
  | none => ("help".data, 1/2)

/-- Case-insensitive occurrence of `label` inside `text`
(both sides mapped through `str.upper`). -/
def occursCI (label text : List Char) : Bool :=
  containsSub (pyUpper label) (pyUpper text)

/-!
## Confidence heuristic
`backend/src/agents/base.py`, `BaseAgent._calculate_confidence`.
-/

/-- `BaseAgent._calculate_confidence(message, response)`.  The length test
comes first, then the uncertainty-phrase test, else `0.85`. -/
def calculate_confidence (message response : List Char) : ℚ :=
  if response.length < 50 then 6/10
  else if containsSub "I'm not sure".data response
          || containsSub "I don't know".data response then 4/10
  else 85/100

/-!
## Agents and the LangGraph workflow
`backend/src/agents/{help,technical,personal,background,interview}.py` and
`backend/src/agents/workflow.py`.

Each agent's `process` returns a dict
`{content, agent_name, confidence, metadata}`; the workflow reads
`response["content"]` and `response.get("confidence", 0.8)`.  The
`confidence` key is modelled as an `Option` so that the workflow's
`.get` default is represented faithfully.  The LLM call inside each
`process` is an oracle input `llmResponse`.
-/

/-- The dict returned by an agent's `process`. -/
structure AgentReply where
  content : List Char
  agent_name : List Char
  confidence : Option ℚ
  metadata_focus : List Char
  deriving Repr, DecidableEq

/-- `HelpAgent.process` (`backend/src/agents/help.py`): constant confidence
`0.8`, metadata `{"focus": "guidance"}`; the content is the LLM response. -/
def helpProcess (llmResponse : List Char) : AgentReply :=
  { content := llmResponse,
    agent_name := "Help".data,
    confidence := some (8/10),
    metadata_focus := "guidance".data }

/-- `InterviewAgent.process`: constant confidence `0.9`. -/
def interviewProcess (llmResponse : List Char) : AgentReply :=
  { content := llmResponse,
    agent_name := "Interview".data,
    confidence := some (9/10),
    metadata_focus := "interview".data }

/-- `TechnicalAgent.process`: confidence from `_calculate_confidence`. -/
def technicalProcess (message llmResponse : List Char) : AgentReply :=
  { content := llmResponse,
    agent_name := "Technical".data,
    confidence := some (calculate_confidence message llmResponse),
    metadata_focus := "technical".data }

/-- `PersonalAgent.process`: confidence from `_calculate_confidence`. -/
def personalProcess (message llmResponse : List Char) : AgentReply :=
  { content := llmResponse,
    agent_name := "Personal".data,
    confidence := some (calculate_confidence message llmResponse),
    metadata_focus := "personal".data }

/-- `BackgroundAgent.process`: confidence from `_calculate_confidence`. -/
def backgroundProcess (message llmResponse : List Char) : AgentReply :=
  { content := llmResponse,
    agent_name := "Background".data,
    confidence := some (calculate_confidence message llmResponse),
    metadata_focus := "background".data }

/-- The `agents` dict built in `create_chatbot_workflow`, in insertion
order.  Each entry maps an agent key to its `process` method,
`(message, llmResponse) ↦ reply`. -/
def agentsList : List (List Char × (List Char → List Char → AgentReply)) :=
  [ ("interview".data, fun _ r => interviewProcess r),
    ("technical".data, technicalProcess),
    ("personal".data, personalProcess),
    ("background".data, backgroundProcess),
    ("help".data, fun _ r => helpProcess r) ]

/-- Looks an agent up in the `agents` dict (`agents.get(agent_name)`). -/
def lookupAgent (name : List Char) :
    Option (List Char → List Char → AgentReply) :=
  (agentsList.find? (fun kv => kv.1 == name)).map (·.2)

/-- A message in a session's history: `HumanMessage`, or `AIMessage` with the
`additional_kwargs` (`agent`, `confidence`) that `process_with_agent`
always sets. -/
inductive Msg where
  | human (content : List Char)
  | ai (content : List Char) (agent : List Char) (confidence : ℚ)
  deriving Repr, DecidableEq

/-- Is this an `AIMessage`? -/
def Msg.isAi : Msg → Bool
  | .human _ => false
  | .ai .. => true

/-- The `GraphState` TypedDict of `workflow.py`.  The only `metadata` key the
code writes is `routing_confidence`, modelled as an `Option ℚ`. -/
structure GraphState where
  messages : List Msg
  current_agent : Option (List Char)
  next_agent : Option (List Char)
  session_id : List Char
  token : List Char
  company : List Char
  agent_history : List (List Char)
  routing_confidence : Option ℚ
  deriving Repr, DecidableEq

/-- The default confidence in `response.get("confidence", 0.8)` of
`process_with_agent`. -/
def fallback_confidence : ℚ := 8/10

/-- `route_message` node: runs the router on the last message when it is a
`HumanMessage`; `routerText` is the router LLM's raw response. -/
def route_message (state : GraphState) (routerText : List Char) : GraphState :=
  match state.messages.getLast? with
  | some (Msg.human _) =>
      let routing := route routerText
      { state with
          next_agent := some routing.1,
          routing_confidence := some routing.2 }
  | _ => state

/-- `process_with_agent(state, agent_name)`: dispatches to the named agent
(falling back to `agents["help"]` when the name is unknown), appends the
`AIMessage` and records the agent in `current_agent`/`agent_history`.
`llmResponse` is the agent LLM's raw response. -/
def process_with_agent (state : GraphState) (agent_name : List Char)
    (llmResponse : List Char) : GraphState :=
  match state.messages.getLast? with
  | some (Msg.human content) =>
      let agent := (lookupAgent agent_name).getD (fun _ r => helpProcess r)
      let response := agent content llmResponse
      let ai_msg := Msg.ai response.content agent_name
        (response.confidence.getD fallback_confidence)
      { state with
          messages := state.messages ++ [ai_msg],
          current_agent := some agent_name,
          agent_history := state.agent_history ++ [agent_name] }
  | _ => state

/-- `should_continue`: follow `next_agent` when it is a key of the `agents`
dict, else fall back to the `"help"` edge. -/
def should_continue (state : GraphState) : List Char :=
  match state.next_agent with
  | some n => if (agentsList.find? (fun kv => kv.1 == n)).isSome then n
              else "help".data
  | none => "help".data

/-- One LangGraph super-step for a node that returns the full state.
`GraphState.messages` is declared
`Annotated[Sequence[BaseMessage], operator.add]` (`workflow.py` line 19),
a reducer channel: the list a node receives aliases the channel value, so
an in-place `append` already lands in the channel, and the `messages`
entry of the returned state is then concatenated onto the channel by
`operator.add`.  Every other key is a last-value channel overwritten by
the returned state.  Hence after the node runs (producing `r` from the
snapshot), the channel holds `r.messages ++ r.messages`. -/
def applyNode (f : GraphState → GraphState) (s : GraphState) : GraphState :=
  let r := f s
  { r with messages := r.messages ++ r.messages }

/-- One run of the compiled graph (`ainvoke`): the initial input write adds
the input `messages` to the empty channel (leaving them unchanged), then
the `router` node runs as a super-step, the conditional edge is evaluated
on the updated state, and the selected agent node runs as a super-step.
Both nodes return the full state, so each super-step doubles the
`messages` channel via the `operator.add` reducer. -/
def workflow_invoke (state : GraphState) (routerText agentText : List Char) :
    GraphState :=
  let s1 := applyNode (fun s => route_message s routerText) state
  applyNode (fun s => process_with_agent s (should_continue s1) agentText) s1

/-- The session map of `ChatbotManager`, keyed by `session_id`. -/
abbrev Sessions := List (List Char × GraphState)

/-- The fresh per-session state built by `ChatbotManager.process_message`
for an unknown `session_id`. -/
def newSession (session_id : List Char) : GraphState :=
  { messages := [],
    current_agent := none,
    next_agent := none,
    session_id := session_id,
    token := "demo_token".data,
    company := "public_access".data,
    agent_history := [],
    routing_confidence := none }

/-- `self.sessions[session_id]` after the get-or-create step. -/
def getOrCreateSession (sessions : Sessions) (session_id : List Char) :
    GraphState :=
  ((sessions.find? (fun kv => kv.1 == session_id)).map (·.2)).getD
    (newSession session_id)

/-- `self.sessions[session_id] = result`. -/
def storeSession (sessions : Sessions) (session_id : List Char)
    (st : GraphState) : Sessions :=
  if (sessions.find? (fun kv => kv.1 == session_id)).isSome then
    sessions.map (fun kv => if kv.1 == session_id then (kv.1, st) else kv)
  else sessions ++ [(session_id, st)]

/-- The JSON dict returned by `ChatbotManager.process_message`. -/
structure ChatResult where
  success : Bool
  response : Option (List Char)
  agent : Option (List Char)
  confidence : Option ℚ
  error : Option (List Char)
  session_id : List Char
  deriving Repr, DecidableEq

/-- `ChatbotManager.process_message(message, session_id)`: get-or-create the
session, append the user message, run the workflow, store the result, and
answer from the last `AIMessage`. -/
def process_message (sessions : Sessions) (message session_id : List Char)
    (routerText agentText : List Char) : ChatResult × Sessions :=
  let state0 := getOrCreateSession sessions session_id
  let state1 :=
    { state0 with messages := state0.messages ++ [Msg.human message] }
  let result := workflow_invoke state1 routerText agentText
  let sessions' := storeSession sessions session_id result
  match (result.messages.filter Msg.isAi).getLast? with
  | some (Msg.ai content agent confidence) =>
      ({ success := true,
         response := some content,
         agent := some agent,
         confidence := some confidence,
         error := none,
         session_id := session_id }, sessions')
  | _ =>
      ({ success := false,
         response := none,
         agent := none,
         confidence := none,
         error := some "No response generated".data,
         session_id := session_id }, sessions')

/-!
## Pydantic `AgentResponse`
`backend/src/agents/base.py`: `confidence: float = Field(ge=0, le=1)` — the
validator rejects any value outside `[0, 1]`, so construction is fallible.
-/

/-- A validated `AgentResponse`. -/
structure AgentResponse where
  content : List Char
  agent_name : List Char
  confidence : ℚ
  metadata_model : List Char
  metadata_temperature : ℚ
  deriving Repr, DecidableEq

/-- Pydantic construction of `AgentResponse`: the `Field(ge=0, le=1)`
bound on `confidence` is checked, and violation raises. -/
def mkAgentResponse (content agent_name : List Char) (confidence : ℚ)
    (model : List Char) (temperature : ℚ) : Option AgentResponse :=
  if 0 ≤ confidence ∧ confidence ≤ 1 then
    some ⟨content, agent_name, confidence, model, temperature⟩
  else none

/-!
## Token authentication
`backend/src/nodes/auth.py` (`TokenAuthNode`),
`backend/src/solutions/resume_dashboard/utils/database.py`
(`DatabaseManager`) and `backend/src/main.py` (`/auth/token`).

The `token_access` table is an association list keyed by `token_hash`.
SHA-256 is modelled by an arbitrary hashing function passed as an
argument, and `CURRENT_TIMESTAMP` / `datetime.now()` by a `now : ℕ`
argument.  `access_logs` and the in-memory `self.access_logs` are
separate tables and are not part of the token store.
-/

/-- One row of the `token_access` table. -/
structure TokenRecord where
  company : List Char
  company_name : List Char
  custom_data : List Char
  created_at : ℕ
  last_accessed : ℕ
  deriving Repr, DecidableEq

/-- The `token_access` table, keyed by `token_hash`. -/
abbrev Db := List (List Char × TokenRecord)

/-- `DatabaseManager.get_token_info`: the row for a hash, if any. -/
def get_token_info (db : Db) (token_hash : List Char) : Option TokenRecord :=
  (db.find? (fun kv => kv.1 == token_hash)).map (·.2)

/-- `DatabaseManager.update_token_access`: set `last_accessed` to now. -/
def update_token_access (db : Db) (token_hash : List Char) (now : ℕ) : Db :=
  db.map (fun kv => if kv.1 == token_hash then
    (kv.1, { kv.2 with last_accessed := now }) else kv)

/-- `DatabaseManager.update_token_company`: overwrite `company` and
`company_name`, refreshing `last_accessed`. -/
def update_token_company (db : Db)
    (token_hash company company_name : List Char) (now : ℕ) : Db :=
  db.map (fun kv => if kv.1 == token_hash then
    (kv.1, { kv.2 with
               company := company,
               company_name := company_name,
               last_accessed := now }) else kv)

/-- The `AuthState` pydantic model of `nodes/auth.py`. -/
structure AuthState where
  token : Option (List Char) := none
  authenticated : Bool := false
  company : Option (List Char) := none
  company_name : Option (List Char) := none
  custom_data : List Char := []
  session_id : Option (List Char) := none
  error : Option (List Char) := none
  deriving Repr, DecidableEq

/-- Python truthiness of an `Optional[str]`: `None` and `""` are falsy. -/
def truthy : Option (List Char) → Bool
  | none => false
  | some s => !s.isEmpty

/-- The `session_id` built on success:
`f"{hashed_token[:8]}_{int(datetime.now().timestamp())}"`. -/
def sessionIdOf (hashed : List Char) (now : ℕ) : List Char :=
  hashed.take 8 ++ '_' :: (toString now).data

/-- `TokenAuthNode.__call__` with a live database (the `self.db_manager is
None` guard is outside this model).  `hash` models `_hash_token`. -/
def authCall (hash : List Char → List Char) (db : Db) (now : ℕ)
    (log_access : Bool) (state : AuthState) : AuthState × Db :=
  match state.token with
  | none => ({ state with error := some "No token provided".data }, db)
  | some t =>
    if t.isEmpty then
      ({ state with error := some "No token provided".data }, db)
    else
      let hashed := hash t
      match get_token_info db hashed with
      | some info =>
          let db1 := if truthy state.company then
              update_token_company db hashed (state.company.getD [])
                (state.company.getD []) now
            else db
          let db2 :=
            if log_access then update_token_access db1 hashed now else db1
          ({ state with
               authenticated := true,
               company := if truthy state.company then state.company
                          else some info.company,
               company_name := if truthy state.company then state.company
                               else some info.company_name,
               custom_data := info.custom_data,
               session_id := some (sessionIdOf hashed now) }, db2)
      | none => ({ state with error := some "Invalid token".data }, db)

/-- The `AuthResponse` model of `main.py`. -/
structure AuthResponse where
  authenticated : Bool
  company : Option (List Char) := none
  company_name : Option (List Char) := none
  session_id : Option (List Char) := none
  error : Option (List Char) := none
  domain_valid : Option Bool := none
  domain_message : Option (List Char) := none
  deriving Repr, DecidableEq

/-- The `POST /auth/token` handler `authenticate_token` of `main.py`.
Returning an `AuthResponse` models the endpoint's normal return, which
FastAPI serves as HTTP 200.  `dv` models
`get_domain_validator().is_valid_domain`. -/
def authenticate_token (hash : List Char → List Char)
    (dv : List Char → Bool × List Char) (db : Db) (now : ℕ)
    (token : List Char) (company_domain : Option (List Char)) :
    AuthResponse × Db :=
  let auth_state0 : AuthState := { token := some token }
  let domainGiven := truthy company_domain
  let resp0 : AuthResponse :=
    if domainGiven then
      let r := dv (company_domain.getD [])
      { authenticated := false,
        domain_valid := some r.1,
        domain_message := some r.2 }
    else
      { authenticated := false,
        domain_valid := some true,
        domain_message := some "Domain not required".data }
  let auth_state1 :=
    if domainGiven then { auth_state0 with company := company_domain }
    else { auth_state0 with company := some "not_provided".data }
  let rd := authCall hash db now true auth_state1
  if rd.1.authenticated then
    ({ resp0 with
         authenticated := true,
         company := rd.1.company,
         company_name := rd.1.company_name,
         session_id := rd.1.session_id }, rd.2)
  else
    ({ resp0 with error := rd.1.error }, rd.2)

/-!
## Token validation with expiry
`backend/src/shared/utils/validation.py`, `validate_token`.  The
`"expires"` date string is parsed with `strptime("%Y-%m-%d")` and compared
against `datetime.now()`; parsed dates and the current time are abstracted
to numeric timestamps.
-/

/-- A value of the `token_database` dict given to `validate_token`: its
optional `"company"` and (parsed) `"expires"` entries. -/
structure VTokenInfo where
  company : Option (List Char) := none
  expires : Option ℕ := none
  deriving Repr, DecidableEq

/-- `validate_token(token, token_database)` at time `now`.  A falsy token
fails; the token is normalised with `.strip().upper()`; a missing key
fails; an `"expires"` entry strictly before `now` fails; otherwise the
token is valid with its `"company"` (default `"Unknown"`). -/
def validate_token (token : Option (List Char))
    (token_database : List (List Char × VTokenInfo)) (now : ℕ) :
    Bool × Option (List Char) :=
  match token with
  | none => (false, none)
  | some t0 =>
    if t0.isEmpty then (false, none)
    else
      let t := pyUpper (pyStrip t0)
      match token_database.find? (fun kv => kv.1 == t) with
      | none => (false, none)
      | some kv =>
          match kv.2.expires with
          | some e =>
              if now > e then (false, none)
              else (true, some (kv.2.company.getD "Unknown".data))
          | none => (true, some (kv.2.company.getD "Unknown".data))

/-!
## Lemmas about the substring test
-/

theorem startsWith_iff (p l : List Char) :
    startsWith p l = true ↔ ∃ t, l = p ++ t := by
  induction p generalizing l with
  | nil => simp [startsWith]
  | cons a ps ih =>
    cases l with
    | nil =>
        constructor
        · intro h
          simp [startsWith] at h
        · rintro ⟨t, ht⟩
          simp at ht
    | cons b hs =>
        simp only [startsWith, Bool.and_eq_true, beq_iff_eq, ih]
        constructor
        · rintro ⟨rfl, t, rfl⟩
          exact ⟨t, rfl⟩
        · rintro ⟨t, ht⟩
          injection ht with h1 h2
          exact ⟨h1.symm, t, h2⟩

theorem containsSub_iff (p l : List Char) :
    containsSub p l = true ↔ SubSeg p l := by
  induction l with
  | nil =>
    simp only [containsSub, List.isEmpty_iff, SubSeg]
    constructor
    · rintro rfl
      exact ⟨[], [], rfl⟩
    · rintro ⟨s, t, ht⟩
      rcases List.append_eq_nil.mp ht.symm with ⟨h1, h2⟩
      exact (List.append_eq_nil.mp h1).2
  | cons c rest ih =>
    simp only [containsSub, Bool.or_eq_true, startsWith_iff, ih, SubSeg]
    constructor
    · rintro (⟨t, ht⟩ | ⟨s, t, ht⟩)
      · exact ⟨[], t, ht⟩
      · exact ⟨c :: s, t, by rw [ht]; rfl⟩
    · rintro ⟨s, t, ht⟩
      cases s with
      | nil => exact Or.inl ⟨t, by simpa using ht⟩
      | cons a s' =>
          injection ht with h1 h2
          exact Or.inr ⟨s', t, h2⟩

theorem subseg_reverse {p l : List Char} (h : SubSeg p l) :
    SubSeg p.reverse l.reverse := by
  rcases h with ⟨s, t, rfl⟩
  exact ⟨t.reverse, s.reverse, by simp⟩

theorem containsSub_reverse (p l : List Char) :
    containsSub p.reverse l.reverse = containsSub p l := by
  have h : ∀ a b : List Char, containsSub a b = true →
      containsSub a.reverse b.reverse = true := by
    intro a b hab
    exact (containsSub_iff _ _).mpr (subseg_reverse ((containsSub_iff _ _).mp hab))
  rcases hb : containsSub p l with _ | _
  · rcases hb' : containsSub p.reverse l.reverse with _ | _
    · rfl
    · have := h _ _ hb'
      simp only [List.reverse_reverse] at this
      rw [this] at hb
      exact hb
  · exact h _ _ hb

theorem ws_toUpper {c : Char} (h : isWs c = true) : Char.toUpper c = c := by
  simp only [isWs, Bool.or_eq_true, beq_iff_eq] at h
  rcases h with ((((rfl | rfl) | rfl) | rfl) | rfl) | rfl <;> decide

theorem isWs_toUpper {c : Char} (h : isWs c = true) :
    isWs (Char.toUpper c) = true := by rw [ws_toUpper h]; exact h

/-- Dropping leading whitespace before upper-casing does not change whether a
nonempty whitespace-free pattern occurs. -/
theorem containsSub_pyUpper_dropWhile (p : List Char) (l : List Char)
    (hne : p ≠ []) (hws : ∀ c ∈ p, isWs c = false) :
    containsSub p (pyUpper (l.dropWhile isWs)) = containsSub p (pyUpper l) := by
  induction l with
  | nil => rfl
  | cons c rest ih =>
    rcases hc : isWs c with _ | _
    · simp [List.dropWhile_cons, hc]
    · rw [List.dropWhile_cons, hc, if_pos rfl, ih]
      rcases p with _ | ⟨q, qs⟩
      · exact absurd rfl hne
      · have hq : isWs q = false := hws q (List.mem_cons_self q qs)
        have hqc : (q == Char.toUpper c) = false := by
          rcases hqc' : q == Char.toUpper c with _ | _
          · rfl
          · exfalso
            have hqe : q = Char.toUpper c := beq_iff_eq.mp hqc'
            rw [hqe, isWs_toUpper hc] at hq
            exact Bool.true_eq_false.mp hq
        show containsSub (q :: qs) (pyUpper rest)
            = ((q == Char.toUpper c) && startsWith qs (pyUpper rest)
               || containsSub (q :: qs) (pyUpper rest))
        rw [hqc, Bool.false_and, Bool.false_or]

/-- Removing the pattern occurrences is unaffected by `str.strip()`:
for a nonempty whitespace-free pattern, occurrence in the upper-cased
stripped text equals occurrence in the upper-cased original text. -/
theorem containsSub_pyUpper_strip (p : List Char) (l : List Char)
    (hne : p ≠ []) (hws : ∀ c ∈ p, isWs c = false) :
    containsSub p (pyUpper (pyStrip l)) = containsSub p (pyUpper l) := by
  have hne' : p.reverse ≠ [] := by
    intro h
    exact hne (by simpa using congrArg List.reverse h)
  have hws' : ∀ c ∈ p.reverse, isWs c = false := by
    intro c hc
    exact hws c (List.mem_reverse.mp hc)
  unfold pyStrip
  calc containsSub p (pyUpper (((l.dropWhile isWs).reverse.dropWhile isWs).reverse))
      = containsSub p ((pyUpper ((l.dropWhile isWs).reverse.dropWhile isWs)).reverse) := by
        rw [pyUpper, pyUpper, List.map_reverse]
    _ = containsSub p.reverse (pyUpper ((l.dropWhile isWs).reverse.dropWhile isWs)) := by
        rw [← containsSub_reverse p.reverse, List.reverse_reverse]
    _ = containsSub p.reverse (pyUpper (l.dropWhile isWs).reverse) :=
        containsSub_pyUpper_dropWhile _ _ hne' hws'
    _ = containsSub p.reverse ((pyUpper (l.dropWhile isWs)).reverse) := by
        rw [pyUpper, pyUpper, List.map_reverse]
    _ = containsSub p (pyUpper (l.dropWhile isWs)) := containsSub_reverse _ _
    _ = containsSub p (pyUpper l) := containsSub_pyUpper_dropWhile _ _ hne hws

theorem containsSub_congr_pat {p q : List Char} (h : p = q) (l : List Char) :
    containsSub p l = containsSub q l := by rw [h]

theorem find?_congr {α : Type} (p q : α → Bool) (l : List α)
    (h : ∀ a ∈ l, p a = q a) : l.find? p = l.find? q := by
  induction l with
  | nil => rfl
  | cons a rest ih =>
    have ha := h a (List.mem_cons_self a rest)
    rw [List.find?_cons, List.find?_cons, ha,
        ih (fun b hb => h b (List.mem_cons_of_mem a hb))]

/-- `RouterAgent.route` selects the first `agent_map` entry whose key occurs
case-insensitively in the raw response text. -/
theorem route_eq_find (llmText : List Char) :
    route llmText =
      match agent_map.find? (fun kv => occursCI kv.1 llmText) with
      | some kv => kv.2
      | none => ("help".data, 1/2) := by
  have hcongr : agent_map.find?
        (fun kv => containsSub kv.1 (pyUpper (pyStrip llmText))) =
      agent_map.find? (fun kv => occursCI kv.1 llmText) := by
    apply find?_congr
    intro kv hkv
    fin_cases hkv <;>
      · show containsSub _ (pyUpper (pyStrip llmText)) = occursCI _ llmText
        unfold occursCI
        rw [containsSub_pyUpper_strip _ _ (by decide) (by decide)]
        exact containsSub_congr_pat (by decide) _
  show (match agent_map.find?
          (fun kv => containsSub kv.1 (pyUpper (pyStrip llmText))) with
        | some kv => kv.2
        | none => ("help".data, 1/2)) = _
  rw [hcongr]

/-!
## Workflow lemmas
-/

theorem calc_conf_bounds (m r : List Char) :
    0 ≤ calculate_confidence m r ∧ calculate_confidence m r ≤ 1 := by
  unfold calculate_confidence
  split_ifs <;> norm_num

theorem route_message_keeps_messages (state : GraphState) (rt : List Char) :
    (route_message state rt).messages = state.messages := by
  unfold route_message
  cases hl : state.messages.getLast? with
  | none => rfl
  | some m => cases m with
    | human c => rfl
    | ai c a q => rfl

theorem route_message_of_human (state : GraphState) (rt content : List Char)
    (h : state.messages.getLast? = some (Msg.human content)) :
    route_message state rt =
      { state with
          next_agent := some (route rt).1,
          routing_confidence := some (route rt).2 } := by
  unfold route_message
  rw [h]

theorem process_with_agent_of_human (state : GraphState)
    (agentName llm content : List Char)
    (h : state.messages.getLast? = some (Msg.human content)) :
    process_with_agent state agentName llm =
      { state with
          messages := state.messages ++
            [Msg.ai (((lookupAgent agentName).getD (fun _ r => helpProcess r))
                content llm).content agentName
              ((((lookupAgent agentName).getD (fun _ r => helpProcess r))
                content llm).confidence.getD fallback_confidence)],
          current_agent := some agentName,
          agent_history := state.agent_history ++ [agentName] } := by
  unfold process_with_agent
  rw [h]

theorem filter_ai_concat (l : List Msg) (c a : List Char) (q : ℚ) :
    ((l ++ [Msg.ai c a q]).filter Msg.isAi).getLast? = some (Msg.ai c a q) := by
  rw [List.filter_append]
  have h1 : List.filter Msg.isAi [Msg.ai c a q] = [Msg.ai c a q] := rfl
  rw [h1, List.getLast?_concat]

theorem find?_map_replace (sessions : Sessions) (sid : List Char)
    (st : GraphState)
    (h : (sessions.find? (fun kv => kv.1 == sid)).isSome = true) :
    ((sessions.map (fun kv => if kv.1 == sid then (kv.1, st) else kv)).find?
        (fun kv => kv.1 == sid)).map (·.2) = some st := by
  induction sessions with
  | nil => simp [List.find?] at h
  | cons kv rest ih =>
    rcases hk : kv.1 == sid with _ | _
    · have hif : (if kv.1 == sid then (kv.1, st) else kv) = kv :=
        if_neg (by simp [hk])
      have hmap : ((kv :: rest).map
            (fun kv => if kv.1 == sid then (kv.1, st) else kv))
          = kv :: rest.map (fun kv => if kv.1 == sid then (kv.1, st) else kv) := by
        rw [List.map_cons, hif]
      have hstep : List.find? (fun kv => kv.1 == sid)
            (kv :: rest.map (fun kv => if kv.1 == sid then (kv.1, st) else kv))
          = List.find? (fun kv => kv.1 == sid)
              (rest.map (fun kv => if kv.1 == sid then (kv.1, st) else kv)) := by
        apply List.find?_cons_of_neg
        simp [hk]
      have hstep2 : List.find? (fun kv => kv.1 == sid) (kv :: rest)
          = List.find? (fun kv => kv.1 == sid) rest := by
        apply List.find?_cons_of_neg
        simp [hk]
      rw [hmap, hstep]
      rw [hstep2] at h
      exact ih h
    · have hif : (if kv.1 == sid then (kv.1, st) else kv) = (kv.1, st) :=
        if_pos hk
      have hmap : ((kv :: rest).map
            (fun kv => if kv.1 == sid then (kv.1, st) else kv))
          = (kv.1, st) :: rest.map (fun kv => if kv.1 == sid then (kv.1, st) else kv) := by
        rw [List.map_cons, hif]
      have hfind : List.find? (fun kv => kv.1 == sid)
            ((kv.1, st) :: rest.map (fun kv => if kv.1 == sid then (kv.1, st) else kv))
          = some (kv.1, st) := by
        apply List.find?_cons_of_pos
        exact hk
      rw [hmap, hfind]
      rfl

theorem getOrCreateSession_storeSession (sessions : Sessions) (sid : List Char)
    (st : GraphState) :
    getOrCreateSession (storeSession sessions sid st) sid = st := by
  unfold getOrCreateSession storeSession
  rcases h : (sessions.find? (fun kv => kv.1 == sid)).isSome with _ | _
  · rw [if_neg (by simp [h])]
    have hnone : sessions.find? (fun kv => kv.1 == sid) = none := by
      rcases hf : sessions.find? (fun kv => kv.1 == sid) with _ | v
      · exact hf
      · rw [hf] at h
        simp at h
    rw [List.find?_append, hnone]
    have hsingle : List.find? (fun kv => kv.1 == sid) [(sid, st)]
        = some (sid, st) :=
      List.find?_cons_of_pos _ (by simp)
    rw [Option.none_or, hsingle]
    rfl
  · rw [if_pos h, find?_map_replace sessions sid st h]
    rfl

/-!
## Claim theorems
-/

/-- C1: `RouterAgent.route` returns `(label, 0.9)` where `label` is the first
label in the fixed enumeration order (interview, technical, personal,
background, help) whose name occurs case-insensitively as a substring of
the router LLM's response text; ties between several occurring labels are
broken by enumeration order, and every matched label carries confidence
`0.9`. -/
theorem route_returns_first_matching_label (resp : List Char)
    (kv : List Char × (List Char × ℚ))
    (h : agent_map.find? (fun kv => occursCI kv.1 resp) = some kv) :
    route resp = kv.2 ∧ kv.2.2 = 9/10 := by
  constructor
  · rw [route_eq_find, h]
  · have hmem := List.mem_of_find?_eq_some h
    fin_cases hmem <;> norm_num

/-- C1 witness: a response mentioning TECHNICAL first and INTERVIEW later
routes to `interview` (enumeration order, not input position), with
confidence `0.9`. -/
theorem route_returns_first_matching_label_witness :
    route "Use the Technical agent, not INTERVIEW".data
      = ("interview".data, 9/10) :=
  (route_returns_first_matching_label
    "Use the Technical agent, not INTERVIEW".data
    ("INTERVIEW".data, ("interview".data, 9/10)) rfl).1

/-- C2: when none of the five label names occurs case-insensitively in the
router LLM's response text, `RouterAgent.route` returns exactly
`("help", 0.5)`. -/
theorem route_defaults_to_help_when_no_label (resp : List Char)
    (h : ∀ kv ∈ agent_map, occursCI kv.1 resp = false) :
    route resp = ("help".data, 1/2) := by
  rw [route_eq_find]
  have hnone : agent_map.find? (fun kv => occursCI kv.1 resp) = none :=
    List.find?_eq_none.mpr (fun kv hkv => by simp [h kv hkv])
  rw [hnone]

/-- C2 witness: a response with no label token yields `("help", 0.5)`. -/
theorem route_defaults_to_help_when_no_label_witness :
    route "I cannot classify this message".data = ("help".data, 1/2) :=
  route_defaults_to_help_when_no_label
    "I cannot classify this message".data (by decide)

/-- C3 counterexample: the claim says any response containing
`"I don't know"` yields confidence at most `0.4`, but the code checks the
length first: the 12-character response `"I don't know"` yields `0.6`. -/
theorem calc_confidence_uncertain_short_counterexample :
    containsSub "I don't know".data "I don't know".data = true ∧
    calculate_confidence [] "I don't know".data = 6/10 ∧
    ¬ calculate_confidence [] "I don't know".data ≤ 4/10 := by
  have h6 : calculate_confidence [] "I don't know".data = 6/10 := rfl
  refine ⟨by decide, h6, ?_⟩
  rw [h6]
  norm_num

/-- C3 (amended): the heuristic returns `0.6` whenever the response is
shorter than 50 characters (even if it contains an uncertainty phrase);
`0.4` when the response has length at least 50 and contains
`"I'm not sure"` or `"I don't know"`; and `0.85` otherwise. -/
theorem calc_confidence_case_analysis (message response : List Char) :
    (response.length < 50 → calculate_confidence message response = 6/10) ∧
    (¬ response.length < 50 →
      (containsSub "I'm not sure".data response
        || containsSub "I don't know".data response) = true →
      calculate_confidence message response = 4/10) ∧
    (¬ response.length < 50 →
      (containsSub "I'm not sure".data response
        || containsSub "I don't know".data response) = false →
      calculate_confidence message response = 85/100) := by
  refine ⟨fun h => ?_, fun h hc => ?_, fun h hc => ?_⟩
  · simp [calculate_confidence, h]
  · simp [calculate_confidence, h, hc]
  · simp [calculate_confidence, h, hc]

/-- C3 witness: a 59-character response containing `"I don't know"` gets
confidence `0.4` from the second case of the amended claim. -/
theorem calc_confidence_case_analysis_witness :
    calculate_confidence []
      "Honestly, I don't know the answer to that question at all.".data
      = 4/10 :=
  (calc_confidence_case_analysis []
    "Honestly, I don't know the answer to that question at all.".data).2.1
    (by decide) (by decide)

/-- C10: `HelpAgent.process` hard-codes confidence `0.8` for every LLM
response, whatever its length or content, and `0.8` is a value the shared
`_calculate_confidence` heuristic can never produce. -/
theorem help_agent_confidence_constant :
    (∀ llmResponse, (helpProcess llmResponse).confidence = some (8/10)) ∧
    (∀ message response, calculate_confidence message response ≠ 8/10) := by
  constructor
  · intro r
    rfl
  · intro m r
    unfold calculate_confidence
    split_ifs <;> norm_num

/-- C8: every confidence the system produces lies in `[0, 1]`: the router
returns `0.9` or `0.5`; the shared heuristic stays in `[0, 1]`; a validated
`AgentResponse` has `0 ≤ confidence ≤ 1`; the workflow's fallback default is
`0.8`; and every registered agent's reply confidence lies in `[0, 1]`. -/
theorem confidence_always_in_unit_interval :
    (∀ resp, ((route resp).2 = 9/10 ∨ (route resp).2 = 1/2) ∧
      0 ≤ (route resp).2 ∧ (route resp).2 ≤ 1) ∧
    (∀ m r, 0 ≤ calculate_confidence m r ∧ calculate_confidence m r ≤ 1) ∧
    (∀ content an conf model temp r,
      mkAgentResponse content an conf model temp = some r →
      0 ≤ r.confidence ∧ r.confidence ≤ 1) ∧
    (fallback_confidence = 8/10 ∧
      0 ≤ fallback_confidence ∧ fallback_confidence ≤ 1) ∧
    (∀ kv ∈ agentsList, ∀ m llm, ∃ q,
      (kv.2 m llm).confidence = some q ∧ 0 ≤ q ∧ q ≤ 1) := by
  refine ⟨?_, calc_conf_bounds, ?_,
    ⟨rfl, by norm_num [fallback_confidence], by norm_num [fallback_confidence]⟩,
    ?_⟩
  · intro resp
    rw [route_eq_find resp]
    rcases hf : agent_map.find? (fun kv => occursCI kv.1 resp) with _ | kv
    · rw [hf]
      exact ⟨Or.inr rfl, by norm_num, by norm_num⟩
    · rw [hf]
      have hmem := List.mem_of_find?_eq_some hf
      fin_cases hmem <;> exact ⟨Or.inl rfl, by norm_num, by norm_num⟩
  · intro content an conf model temp r h
    unfold mkAgentResponse at h
    by_cases hb : 0 ≤ conf ∧ conf ≤ 1
    · rw [if_pos hb] at h
      injection h with h2
      subst h2
      exact hb
    · rw [if_neg hb] at h
      exact Option.noConfusion h
  · intro kv hkv m llm
    fin_cases hkv
    · exact ⟨9/10, rfl, by norm_num, by norm_num⟩
    · exact ⟨calculate_confidence m llm, rfl, calc_conf_bounds m llm⟩
    · exact ⟨calculate_confidence m llm, rfl, calc_conf_bounds m llm⟩
    · exact ⟨calculate_confidence m llm, rfl, calc_conf_bounds m llm⟩
    · exact ⟨8/10, rfl, by norm_num, by norm_num⟩

/-- C8 witness: a concrete validated `AgentResponse` with confidence `1/2`
satisfies the bounds. -/
theorem confidence_always_in_unit_interval_witness :
    0 ≤ (⟨[], [], 1/2, [], 0⟩ : AgentResponse).confidence ∧
    (⟨[], [], 1/2, [], 0⟩ : AgentResponse).confidence ≤ 1 :=
  confidence_always_in_unit_interval.2.2.1 [] [] (1/2) [] 0
    ⟨[], [], 1/2, [], 0⟩
    (by unfold mkAgentResponse
        rw [if_pos ⟨by norm_num, by norm_num⟩])

/-- C4 (code bug): the specified invariant — a successful chat call grows
the session history by exactly two entries, the user's message followed by
the assistant reply — fails on the code.  Both graph nodes return the full
state through the `operator.add` reducer channel, so a first successful
call on a fresh session with message `"hi"` (router LLM response `"HELP"`,
agent LLM response `"ok"`) reports success yet stores the six-entry
history `[user, user, assistant, user, user, assistant]` instead of
`[user, assistant]`. -/
theorem chat_first_call_duplicates_history :
    (process_message [] "hi".data "s1".data "HELP".data
        "ok".data).1.success = true ∧
    (getOrCreateSession [] "s1".data).messages = [] ∧
    (getOrCreateSession (process_message [] "hi".data "s1".data "HELP".data
        "ok".data).2 "s1".data).messages
      = [Msg.human "hi".data, Msg.human "hi".data,
         Msg.ai "ok".data "help".data (8/10),
         Msg.human "hi".data, Msg.human "hi".data,
         Msg.ai "ok".data "help".data (8/10)] :=
  ⟨rfl, rfl, rfl⟩

/-- C5: for an agent name that is not a key of the `agents` dict, dispatch
falls back to the help agent: the dispatched `process` is exactly
`HelpAgent.process` (so the reply has the help agent's shape — content,
agent_name, confidence and metadata fields), the conditional edge routes to
`"help"`, and `process_with_agent` appends the help agent's reply. -/
theorem unknown_agent_dispatch_falls_back_to_help (agent_name : List Char)
    (h : lookupAgent agent_name = none) :
    (∀ msg llm,
      ((lookupAgent agent_name).getD (fun _ r => helpProcess r)) msg llm
        = helpProcess llm ∧
      (helpProcess llm).agent_name = "Help".data ∧
      (helpProcess llm).content = llm ∧
      (helpProcess llm).confidence = some (8/10) ∧
      (helpProcess llm).metadata_focus = "guidance".data) ∧
    (∀ state : GraphState, state.next_agent = some agent_name →
      should_continue state = "help".data) ∧
    (∀ (state : GraphState) (content llm : List Char),
      state.messages.getLast? = some (Msg.human content) →
      process_with_agent state agent_name llm =
        { state with
            messages := state.messages ++
              [Msg.ai (helpProcess llm).content agent_name
                ((helpProcess llm).confidence.getD fallback_confidence)],
            current_agent := some agent_name,
            agent_history := state.agent_history ++ [agent_name] }) := by
  have hf : agentsList.find? (fun kv => kv.1 == agent_name) = none := by
    unfold lookupAgent at h
    rcases hf' : agentsList.find? (fun kv => kv.1 == agent_name) with _ | v
    · exact hf'
    · rw [hf'] at h
      exact Option.noConfusion h
  refine ⟨?_, ?_, ?_⟩
  · intro msg llm
    rw [h]
    exact ⟨rfl, rfl, rfl, rfl, rfl⟩
  · intro state hna
    unfold should_continue
    rw [hna]
    show (if (agentsList.find? (fun kv => kv.1 == agent_name)).isSome = true
          then agent_name else "help".data) = "help".data
    rw [hf]
    rfl
  · intro state content llm hlast
    rw [process_with_agent_of_human state agent_name llm content hlast, h]
    rfl

/-- C5 witness: the unknown agent name `"banana"` routes the conditional
edge to `"help"`. -/
theorem unknown_agent_dispatch_falls_back_to_help_witness :
    should_continue
        { messages := [],
          current_agent := none,
          next_agent := some "banana".data,
          session_id := [],
          token := [],
          company := [],
          agent_history := [],
          routing_confidence := none }
      = "help".data :=
  (unknown_agent_dispatch_falls_back_to_help "banana".data rfl).2.1 _ rfl

theorem get_token_info_map_update (db : Db) (th : List Char)
    (f : TokenRecord → TokenRecord) :
    get_token_info
        (db.map (fun kv => if kv.1 == th then (kv.1, f kv.2) else kv)) th
      = (get_token_info db th).map f := by
  induction db with
  | nil => rfl
  | cons kv rest ih =>
    unfold get_token_info
    rcases hk : kv.1 == th with _ | _
    · have hif : (if kv.1 == th then (kv.1, f kv.2) else kv) = kv :=
        if_neg (by simp [hk])
      rw [List.map_cons, hif]
      have hstep1 : List.find? (fun kv => kv.1 == th)
            (kv :: rest.map (fun kv => if kv.1 == th then (kv.1, f kv.2) else kv))
          = List.find? (fun kv => kv.1 == th)
              (rest.map (fun kv => if kv.1 == th then (kv.1, f kv.2) else kv)) := by
        apply List.find?_cons_of_neg
        simp [hk]
      have hstep2 : List.find? (fun kv => kv.1 == th) (kv :: rest)
          = List.find? (fun kv => kv.1 == th) rest := by
        apply List.find?_cons_of_neg
        simp [hk]
      rw [hstep1, hstep2]
      exact ih
    · have hif : (if kv.1 == th then (kv.1, f kv.2) else kv) = (kv.1, f kv.2) :=
        if_pos hk
      rw [List.map_cons, hif]
      have hfind1 : List.find? (fun kv => kv.1 == th)
            ((kv.1, f kv.2) ::
              rest.map (fun kv => if kv.1 == th then (kv.1, f kv.2) else kv))
          = some (kv.1, f kv.2) := by
        apply List.find?_cons_of_pos
        exact hk
      have hfind2 : List.find? (fun kv => kv.1 == th) (kv :: rest) = some kv := by
        apply List.find?_cons_of_pos
        exact hk
      rw [hfind1, hfind2]
      rfl

theorem get_token_info_update_company (db : Db)
    (th c cn : List Char) (now : ℕ) :
    get_token_info (update_token_company db th c cn now) th
      = (get_token_info db th).map
          (fun r => { r with company := c, company_name := cn,
                             last_accessed := now }) := by
  unfold update_token_company
  exact get_token_info_map_update db th
    (fun r => { r with company := c, company_name := cn,
                       last_accessed := now })

theorem get_token_info_update_access (db : Db) (th : List Char) (now : ℕ) :
    get_token_info (update_token_access db th now) th
      = (get_token_info db th).map
          (fun r => { r with last_accessed := now }) := by
  unfold update_token_access
  exact get_token_info_map_update db th
    (fun r => { r with last_accessed := now })

/-- Core of C9: a successful `TokenAuthNode.__call__` with a truthy caller
company overwrites the stored `company` and `company_name` with the caller's
value and refreshes `last_accessed`. -/
theorem authCall_company_update
    (hash : List Char → List Char) (db : Db) (now : ℕ) (log_access : Bool)
    (state : AuthState) (t c : List Char) (info : TokenRecord)
    (htok : state.token = some t) (ht : t.isEmpty = false)
    (hc : state.company = some c) (hcne : c.isEmpty = false)
    (hinfo : get_token_info db (hash t) = some info) :
    get_token_info (authCall hash db now log_access state).2 (hash t)
      = some { info with company := c, company_name := c,
                         last_accessed := now }
    ∧ (authCall hash db now log_access state).1.authenticated = true := by
  have htr : truthy state.company = true := by
    rw [hc]
    simp [truthy, hcne]
  have hgd : state.company.getD [] = c := by
    rw [hc]
    rfl
  have hdb2 : (authCall hash db now log_access state).2
      = (if log_access = true then
          update_token_access (update_token_company db (hash t) c c now)
            (hash t) now
        else update_token_company db (hash t) c c now) := by
    simp only [authCall, htok, ht, hinfo, htr, hgd, Bool.false_eq_true,
      if_false, eq_self_iff_true, if_true]
  constructor
  · rw [hdb2]
    cases log_access with
    | false =>
        rw [if_neg (by simp), get_token_info_update_company, hinfo]
        rfl
    | true =>
        rw [if_pos rfl, get_token_info_update_access,
          get_token_info_update_company, hinfo]
        rfl
  · simp only [authCall, htok, ht, hinfo, Bool.false_eq_true, if_false]

/-- C9: a successful authentication with a caller-supplied (truthy) company
overwrites the stored `company` and `company_name` with the caller's value
and refreshes `last_accessed`; consequently a second authentication by a
different caller overwrites them again, so the stored company is not stable
across callers. -/
theorem auth_overwrites_stored_company
    (hash : List Char → List Char) (db : Db) (now : ℕ) (log_access : Bool)
    (state : AuthState) (t c : List Char) (info : TokenRecord)
    (htok : state.token = some t) (ht : t.isEmpty = false)
    (hc : state.company = some c) (hcne : c.isEmpty = false)
    (hinfo : get_token_info db (hash t) = some info) :
    get_token_info (authCall hash db now log_access state).2 (hash t)
      = some { info with company := c, company_name := c,
                         last_accessed := now }
    ∧ ∀ (state2 : AuthState) (c2 : List Char) (now2 : ℕ) (log2 : Bool),
        state2.token = some t → state2.company = some c2 →
        c2.isEmpty = false →
        get_token_info
            (authCall hash (authCall hash db now log_access state).2 now2
              log2 state2).2 (hash t)
          = some { info with company := c2, company_name := c2,
                             last_accessed := now2 } := by
  have h1 := authCall_company_update hash db now log_access state t c info
    htok ht hc hcne hinfo
  refine ⟨h1.1, ?_⟩
  intro state2 c2 now2 log2 htok2 hc2 hcne2
  have h2 := authCall_company_update hash
    (authCall hash db now log_access state).2 now2 log2 state2 t c2 _
    htok2 ht hc2 hcne2 h1.1
  rw [h2.1]

/-- C9 witness: authenticating twice with companies `"Acme"` then `"Beta"`
leaves `"Beta"` as the stored company and company_name. -/
theorem auth_overwrites_stored_company_witness :
    get_token_info
        (authCall (fun x => x)
          (authCall (fun x => x)
            [("tok".data, ⟨"old".data, "OldCo".data, [], 0, 0⟩)] 5 true
            { token := some "tok".data, company := some "Acme".data }).2
          9 true
          { token := some "tok".data, company := some "Beta".data }).2
        "tok".data
      = some ⟨"Beta".data, "Beta".data, [], 0, 9⟩ :=
  (auth_overwrites_stored_company (fun x => x)
      [("tok".data, ⟨"old".data, "OldCo".data, [], 0, 0⟩)] 5 true
      { token := some "tok".data, company := some "Acme".data }
      "tok".data "Acme".data ⟨"old".data, "OldCo".data, [], 0, 0⟩
      rfl rfl rfl rfl rfl).2
    { token := some "tok".data, company := some "Beta".data }
    "Beta".data 9 true rfl rfl rfl

/-- C6: `validate_token` accepts a stored token whose expiry is in the
future, returning the stored company, and rejects the same token once the
expiry is past, returning no company. -/
theorem validate_token_expiry_behaviour
    (dbv : List (List Char × VTokenInfo)) (t : List Char)
    (kv : List Char × VTokenInfo) (comp : List Char) (e now1 now2 : ℕ)
    (ht : t.isEmpty = false)
    (hfind : dbv.find? (fun kv2 => kv2.1 == pyUpper (pyStrip t)) = some kv)
    (hcomp : kv.2.company = some comp) (hexp : kv.2.expires = some e)
    (h1 : now1 < e) (h2 : e < now2) :
    validate_token (some t) dbv now1 = (true, some comp) ∧
    validate_token (some t) dbv now2 = (false, none) := by
  constructor
  · simp only [validate_token, ht, Bool.false_eq_true, if_false, hfind,
      hexp, hcomp]
    rw [if_neg (by omega)]
    rfl
  · simp only [validate_token, ht, Bool.false_eq_true, if_false, hfind, hexp]
    rw [if_pos (by omega)]

/-- C6 witness: the `"GOOGLE2024"` scenario — valid before the expiry
timestamp with company `"Google"`, invalid after it. -/
theorem validate_token_expiry_behaviour_witness :
    validate_token (some "GOOGLE2024".data)
        [("GOOGLE2024".data,
          ({ company := some "Google".data, expires := some 20241231 }
            : VTokenInfo))] 20240101
      = (true, some "Google".data) ∧
    validate_token (some "GOOGLE2024".data)
        [("GOOGLE2024".data,
          ({ company := some "Google".data, expires := some 20241231 }
            : VTokenInfo))] 20250101
      = (false, none) :=
  validate_token_expiry_behaviour _ "GOOGLE2024".data
    ("GOOGLE2024".data,
      { company := some "Google".data, expires := some 20241231 })
    "Google".data 20241231 20240101 20250101
    rfl (by decide) rfl rfl (by decide) (by decide)

/-- Failure shape of `TokenAuthNode.__call__`: with a missing/empty token or
a hash that is not in the store, the node reports `authenticated = false`
with a non-empty error and leaves the token store untouched. -/
theorem authCall_failure (hash : List Char → List Char) (db : Db) (now : ℕ)
    (log : Bool) (st : AuthState) (t : List Char)
    (htok : st.token = some t) (hauth : st.authenticated = false)
    (h : t = [] ∨ get_token_info db (hash t) = none) :
    (authCall hash db now log st).1.authenticated = false ∧
    (∃ e, (authCall hash db now log st).1.error = some e ∧ e ≠ []) ∧
    (authCall hash db now log st).2 = db := by
  rcases h with rfl | hnone
  · have heq : authCall hash db now log st
        = ({ st with error := some "No token provided".data }, db) := by
      simp only [authCall, htok, List.isEmpty_nil, eq_self_iff_true, if_true]
    rw [heq]
    exact ⟨hauth, ⟨"No token provided".data, rfl, by decide⟩, rfl⟩
  · by_cases hemp : t.isEmpty = true
    · have heq : authCall hash db now log st
          = ({ st with error := some "No token provided".data }, db) := by
        simp only [authCall, htok, hemp, eq_self_iff_true, if_true]
      rw [heq]
      exact ⟨hauth, ⟨"No token provided".data, rfl, by decide⟩, rfl⟩
    · have hemp' : t.isEmpty = false := by
        rcases hb : t.isEmpty with _ | _
        · rfl
        · exact absurd hb hemp
      have heq : authCall hash db now log st
          = ({ st with error := some "Invalid token".data }, db) := by
        simp only [authCall, htok, hemp', Bool.false_eq_true, if_false, hnone]
      rw [heq]
      exact ⟨hauth, ⟨"Invalid token".data, rfl, by decide⟩, rfl⟩

/-- C7: the `/auth/token` endpoint on a missing (empty) token or a token
whose hash is not in the store returns normally (HTTP 200) with
`authenticated = false` and a non-empty error, and leaves the token store
unchanged — in particular `last_accessed` is untouched on failure. -/
theorem auth_endpoint_failure_is_safe
    (hash : List Char → List Char) (dv : List Char → Bool × List Char)
    (db : Db) (now : ℕ) (token : List Char)
    (company_domain : Option (List Char))
    (h : token = [] ∨ get_token_info db (hash token) = none) :
    (authenticate_token hash dv db now token company_domain).1.authenticated
        = false ∧
    (∃ e, (authenticate_token hash dv db now token company_domain).1.error
        = some e ∧ e ≠ []) ∧
    (authenticate_token hash dv db now token company_domain).2 = db := by
  by_cases hdg : truthy company_domain = true
  · obtain ⟨ha, ⟨e, he, hene⟩, hdb⟩ := authCall_failure hash db now true
      { token := some token, authenticated := false,
        company := company_domain, company_name := none, custom_data := [],
        session_id := none, error := none } token rfl rfl h
    simp only [authenticate_token, hdg, if_true, eq_self_iff_true]
    rw [ha]
    simp only [Bool.false_eq_true, if_false]
    exact ⟨trivial, ⟨e, he, hene⟩, hdb⟩
  · have hdg' : truthy company_domain = false := by
      rcases hb : truthy company_domain with _ | _
      · rfl
      · exact absurd hb hdg
    obtain ⟨ha, ⟨e, he, hene⟩, hdb⟩ := authCall_failure hash db now true
      { token := some token, authenticated := false,
        company := some "not_provided".data, company_name := none,
        custom_data := [], session_id := none, error := none } token rfl rfl h
    simp only [authenticate_token, hdg', Bool.false_eq_true, if_false]
    rw [ha]
    simp only [Bool.false_eq_true, if_false]
    exact ⟨trivial, ⟨e, he, hene⟩, hdb⟩

/-- C7 witness: an unknown token against an empty store fails with a
non-empty error and the store stays empty. -/
theorem auth_endpoint_failure_is_safe_witness :
    (authenticate_token (fun x => x) (fun _ => (true, [])) [] 0 "BAD".data
        none).1.authenticated = false ∧
    (∃ e, (authenticate_token (fun x => x) (fun _ => (true, [])) [] 0
        "BAD".data none).1.error = some e ∧ e ≠ []) ∧
    (authenticate_token (fun x => x) (fun _ => (true, [])) [] 0 "BAD".data
        none).2 = [] :=
  auth_endpoint_failure_is_safe (fun x => x) (fun _ => (true, [])) [] 0
    "BAD".data none (Or.inr rfl)

end Dashboard


